import Mathlib

/-!
Verification development for the AgIsoStack-plus-plus auxiliary tooling:
the DDI (ISO11783-11 Data Dictionary Identifier) table generator
(`scripts/code_gen_ddi_database.py`) and the Arduino library packager
(`generateArduinoLibrary.py`).  The Python scripts are shallowly embedded:
each relevant Python string primitive (`in`, `strip`, `split(sep, n)`,
`replace`) is modelled by an executable Lean function with the same
semantics, and the generator's two passes over the export file are
modelled as folds over the list of input lines.
-/

namespace DDI

/-- Python `needle in hay` on character lists: `true` iff `needle` is a
contiguous infix of `hay`. -/
def containsSub : List Char → List Char → Bool
  | needle, [] => needle.isEmpty
  | needle, c :: t => needle.isPrefixOf (c :: t) || containsSub needle t

/-- Python `needle in hay` on strings. -/
def pyIn (needle hay : String) : Bool :=
  containsSub needle.data hay.data

/-- Python `str.strip()` (with no argument): remove whitespace from both
ends. -/
def stripChars (l : List Char) : List Char :=
  ((l.dropWhile Char.isWhitespace).reverse.dropWhile Char.isWhitespace).reverse

/-- Python `s.strip()` on strings. -/
def pyStrip (s : String) : String :=
  String.mk (stripChars s.data)

/-- Split a character list at the first occurrence of the character `sep`:
`some (before, after)`, or `none` when `sep` does not occur. -/
def splitOnce (sep : Char) : List Char → Option (List Char × List Char)
  | [] => none
  | c :: t =>
    if c = sep then some ([], t)
    else (splitOnce sep t).map (fun p => (c :: p.1, p.2))

/-- Python `s.split(sep, maxsplit)` for a single-character separator `sep`
and a finite `maxsplit`: at most `maxsplit` splits, empty pieces kept. -/
def pySplitChar (sep : Char) : Nat → List Char → List (List Char)
  | 0, l => [l]
  | Nat.succ n, l =>
    match splitOnce sep l with
    | none => [l]
    | some (a, b) => a :: pySplitChar sep n b

/-- Python `sub.replace("\n", "")` as applied to each piece of the split
entity line. -/
def removeNewlines (l : List Char) : List Char :=
  l.filter (fun c => c ≠ '\n')

/-- Python `s.replace(",", ".")`: single-character replacement is a map. -/
def commaToPoint (s : String) : String :=
  String.mk (s.data.map (fun c => if c = ',' then '.' else c))

/-- A line opens a DDI record iff it contains `"DD Entity"` and does not
contain `"Comment:"` (`code_gen_ddi_database.py`, lines 25 and 116). -/
def isEntityLine (line : String) : Bool :=
  pyIn "DD Entity" line && ! pyIn "Comment:" line

/-- First pass of the generator (lines 21-26): count the record-start
lines of the export. -/
def numberOfDDIs (lines : List String) : Nat :=
  lines.countP isEntityLine

/-- `line.strip().split(' ', 3)` with each piece passed through
`sub.replace("\n", "")` (lines 118-122). -/
def entityParts (line : String) : List String :=
  (pySplitChar ' ' 3 (stripChars line.data)).map (fun p => String.mk (removeNewlines p))

/-- `line.split(' ', 1)`, used by both the unit and the resolution branch
(lines 128 and 137). -/
def splitOnFirstSpace (line : String) : List String :=
  (pySplitChar ' ' 1 line.data).map String.mk

/-- The unit branch's value transformation (lines 129-133): a remainder
containing `"n.a. -"` or `"not defined - not defined"` collapses to the
string `"None"`; the emitted value is then stripped. -/
def unitValue (u0 : String) : String :=
  let u1 := if pyIn "n.a. -" u0 then "None" else u0
  let u2 := if pyIn "not defined - not defined" u1 then "None" else u1
  pyStrip u2

/-- The resolution branch's value transformation (lines 138-143): commas
become points, then the bare literals `"1"` and `"0"` (after stripping)
become `"1.0"` / `"0.0"`; the emitted value is the stripped result. -/
def resolutionValue (r0 : String) : String :=
  let r1 := commaToPoint r0
  let r2 := if pyStrip r1 = "1" then "1.0" else r1
  let r3 := if pyStrip r2 = "0" then "0.0" else r2
  pyStrip r3

/-- One fragment written to the generated `.cpp` body: the start of an
array element (identifier and name), a units string, or a resolution. -/
inductive Frag where
  | entity : String → String → Frag
  | unit : String → Frag
  | resolution : String → Frag
deriving DecidableEq, Repr

/-- The uncaught `IndexError` sites of the second pass: indexing
`strippedEntityLine[2]`/`[3]` (line 125), `entityLine[1]` in the unit
branch (line 129), and `entityLine[1]` in the resolution branch
(line 138). -/
inductive Err where
  | entityIndex : Err
  | unitIndex : Err
  | resolutionIndex : Err
deriving DecidableEq, Repr

/-- The record-start branch (lines 116-125): on a record-start line,
index parts 2 and 3 of the stripped, space-split line (identifier and
name) and write the element opener; an out-of-range index is the uncaught
`IndexError` of line 125.  The branch also arms `processUnit`
(line 117). -/
def entStep (st : Bool) (line : String) : List Frag × Bool × Option Err :=
  if isEntityLine line then
    match (entityParts line).get? 2, (entityParts line).get? 3 with
    | some i, some n => ([Frag.entity i n], true, none)
    | _, _ => ([], st, some Err.entityIndex)
  else ([], st, none)

/-- The unit branch (lines 127-134): fires only while `processUnit` is
armed, writes the transformed remainder after the first space, and
disarms `processUnit`. -/
def uniStep (st1 : Bool) (line : String) : List Frag × Bool × Option Err :=
  if pyIn "Unit:" line && st1 then
    match (splitOnFirstSpace line).get? 1 with
    | some u0 => ([Frag.unit (unitValue u0)], false, none)
    | none => ([], st1, some Err.unitIndex)
  else ([], st1, none)

/-- The resolution branch (lines 136-143): writes the transformed
remainder after the first space; `processUnit` is untouched. -/
def resStep (line : String) : List Frag × Option Err :=
  if pyIn "Resolution" line then
    match (splitOnFirstSpace line).get? 1 with
    | some r0 => ([Frag.resolution (resolutionValue r0)], none)
    | none => ([], some Err.resolutionIndex)
  else ([], none)

/-- One loop iteration of the second pass (lines 115-143) on one line of
the export, given the current `processUnit` flag: the three branches run
in order on the same line.  Returns the fragments written for this line,
the new `processUnit` flag, and the uncaught indexing error when one is
raised (the raising branch writes nothing, because the f-string indexing
is evaluated before the write). -/
def stepLine (st : Bool) (line : String) : List Frag × Bool × Option Err :=
  match entStep st line with
  | (fs, st1, some e) => (fs, st1, some e)
  | (fs, st1, none) =>
    match uniStep st1 line with
    | (fs2, st2, some e) => (fs ++ fs2, st2, some e)
    | (fs2, st2, none) =>
      match resStep line with
      | (fs3, err) => (fs ++ fs2 ++ fs3, st2, err)

/-- The whole second pass: fold `stepLine` over the export lines starting
from `processUnit = st` (the script starts it at `False`, line 114).
Returns every fragment written before the run ends and the uncaught
error, if any (an error aborts the loop). -/
def runGen : Bool → List String → List Frag × Option Err
  | _, [] => ([], none)
  | st, l :: ls =>
    match stepLine st l with
    | (fs, _, some e) => (fs, some e)
    | (fs, st', none) =>
      let r := runGen st' ls
      (fs ++ r.1, r.2)

/-- Whether a fragment is an element opener. -/
def isEntityFrag : Frag → Bool
  | Frag.entity _ _ => true
  | _ => false

/-- The number of array elements emitted: each record-start line writes
exactly one element opener (line 125). -/
def countEntityFrags (fs : List Frag) : Nat :=
  fs.countP isEntityFrag

/-- The text written for one fragment (lines 125, 133, 143). -/
def renderFrag : Frag → String
  | Frag.entity i n => "        \x7b " ++ i ++ ", \"" ++ n ++ "\","
  | Frag.unit u => "\"" ++ u ++ "\", "
  | Frag.resolution r => r ++ "f \x7d, \n"

/-- The two date strings spliced into the templates:
`datetime.today().strftime("%B %d, %Y")` and `strftime("%Y")`. -/
structure GenDate where
  full : String
  year : String
deriving DecidableEq, Repr

/-- The 96-character banner rule that opens and closes the generated
file headers. -/
def eqRule : String := String.mk (List.replicate 96 '=')

/-- Header template (lines 29-77) up to the generation date. -/
def hppPartA : String :=
  String.append ("//" ++ eqRule) "\n/// @file isobus_data_dictionary.hpp\n///\n/// @brief This file contains the definition of an auto-generated lookup of all ISOBUS DDIs\n/// as defined in ISO11783-11, exported from isobus.net.\n/// This file was generated "

/-- Header template between the generation date and the copyright year. -/
def hppPartB : String :=
  ".\n///\n/// @author Adrian Del Grosso\n/// @copyright "

/-- Header template between the copyright year and the array-size literal. -/
def hppPartC : String :=
  " The Open-Agriculture Developers\n//" ++ eqRule ++ "\n#ifndef ISOBUS_DATA_DICTIONARY_HPP\n#define ISOBUS_DATA_DICTIONARY_HPP\n\n#include <cstdint>\n#include <string>\n\nnamespace isobus\n\x7b\n\t/// @brief This class contains the definition of an auto-generated lookup of all ISOBUS DDIs\n\tclass DataDictionary\n\t\x7b\n\tpublic:\n\t\t/// @brief A struct containing the information for a single DDI\n\t\tstruct Entry\n\t\t\x7b\n\t\t\tconst std::uint16_t ddi; ///< The DDI number\n\n\t\t\tconst std::string name; ///< The name of the DDI\n\t\t\tconst std::string units; ///< The units of the DDI\n\t\t\tconst float resolution; ///< The resolution of the DDI\n\t\t\x7d;\n\n        /// @brief Checks the ISO 11783-11 database for the given DDI number\n        /// and returns the corresponding entry if found.\n        /// @param dataDictionaryIdentifier The DDI number to look up\n        /// @return The entry for the given DDI number, or a default entry if not found\n\t\tstatic const Entry &get_entry(std::uint16_t dataDictionaryIdentifier);\n\n\tprivate:\n\t\tstatic const Entry "

/-- Header template after the array-size literal. -/
def hppPartD : String :=
  "; ///< A lookup table of all DDI entries in ISO11783-11\n\t\tstatic const Entry DEFAULT_ENTRY; ///< A default \"unknown\" DDI to return if a DDI is not in the database\n\t\x7d;\n\x7d // namespace isobus\n\n#endif // ISOBUS_DATA_DICTIONARY_HPP\n\n\n"

/-- The generated header file content (lines 28-78): the template with the
generation date, the copyright year and the `numberOfDDIs` count spliced
in.  The header is always written in full to a freshly opened file. -/
def genHeader (lines : List String) (d : GenDate) : String :=
  hppPartA ++ d.full ++ hppPartB ++ d.year ++ hppPartC ++
    "DDI_ENTRIES[" ++ toString (numberOfDDIs lines) ++ "]" ++ hppPartD

/-- Source template (lines 81-111) up to the generation date. -/
def cppPartA : String :=
  String.append ("//" ++ eqRule) "\n/// @file isobus_data_dictionary.cpp\n///\n/// @brief This file contains an auto-generated lookup table of all ISOBUS DDIs as defined\n/// in ISO11783-11, exported from isobus.net.\n/// This file was generated "

/-- Source template between the generation date and the copyright year. -/
def cppPartB : String :=
  ".\n/// @author Adrian Del Grosso\n/// @copyright "

/-- Source template between the copyright year and the array-size literal. -/
def cppPartC : String :=
  " The Open-Agriculture Developers\n//" ++ eqRule ++ "\n// clang-format off\n#include \"isobus/isobus/isobus_data_dictionary.hpp\"\n\nnamespace isobus\n\x7b\n\tconst DataDictionary::Entry &DataDictionary::get_entry(std::uint16_t dataDictionaryIdentifier)\n\t\x7b\n\t\tfor (std::uint_fast16_t i = 0; i < sizeof(DDI_ENTRIES) / sizeof(DataDictionary::Entry); i++)\n\t\t\x7b\n\t\t\tif (DDI_ENTRIES[i].ddi == dataDictionaryIdentifier)\n\t\t\t\x7b\n\t\t\t\treturn DDI_ENTRIES[i];\n\t\t\t\x7d\n\t\t\x7d\n\t\treturn DEFAULT_ENTRY;\n\t\x7d\n\n    const DataDictionary::Entry DataDictionary::DEFAULT_ENTRY = \x7b 65535, \"Unknown\", \"Unknown\", 0.0f \x7d;\n\n\tconst DataDictionary::Entry DataDictionary::"

/-- Source template after the array-size literal, ending at the start of
the array body. -/
def cppPartD : String :=
  " = \x7b\n"

/-- Source template closing the array and the namespace (lines 148-154);
written only when the second pass completes without an uncaught error. -/
def cppSuffix : String :=
  "\x7d;\n\n\x7d // namespace isobus\n// clang-format on\n\n"

/-- The generated source file content (lines 80-156): the template, the
fragments written by the second pass, and — when the pass completes — the
closing suffix.  On an uncaught indexing error only the fragments written
before the error are in the file. -/
def genSource (lines : List String) (d : GenDate) : String :=
  let r := runGen false lines
  cppPartA ++ d.full ++ cppPartB ++ d.year ++ cppPartC ++
    "DDI_ENTRIES[" ++ toString (numberOfDDIs lines) ++ "]" ++ cppPartD ++
    String.join (r.1.map renderFrag) ++
    (match r.2 with | none => cppSuffix | some _ => "")

/-- The files the generator touches: the two output artifacts.  `none`
models an absent file. -/
structure Fs where
  hpp : Option String
  cpp : Option String
deriving DecidableEq, Repr

/-- One full generator run over an already-downloaded export (lines 5-9
and 21-156): any pre-existing output artifacts are removed (lines 5-9)
and both artifacts are rewritten from scratch via `open(..., 'w')`; the
prior contents are never read. -/
def runGenerator (fs : Fs) (lines : List String) (d : GenDate) : Fs :=
  let _ := fs
  { hpp := some (genHeader lines d), cpp := some (genSource lines d) }

/-- The C++ `DataDictionary::Entry` of the generated code: a DDI number,
a name, a single units string, and a resolution. -/
structure Entry where
  ddi : Nat
  name : String
  units : String
  resolution : Rat
deriving DecidableEq, Repr

/-- `DataDictionary::DEFAULT_ENTRY = { 65535, "Unknown", "Unknown", 0.0f }`
(generated source, template line 108). -/
def DEFAULT_ENTRY : Entry :=
  { ddi := 65535, name := "Unknown", units := "Unknown", resolution := 0 }

/-- The generated `DataDictionary::get_entry` (template lines 96-106):
linear scan of the entry array, first entry whose `ddi` matches wins,
`DEFAULT_ENTRY` when none matches.  Total by construction — the C++ loop
has no failing path. -/
def get_entry : List Entry → Nat → Entry
  | [], _ => DEFAULT_ENTRY
  | e :: t, ident => if e.ddi = ident then e else get_entry t ident

/-- Scanner for the per-record unit-fragment discipline: `b` is whether a
unit fragment may still be emitted for the record in progress.  A record
start re-arms it, a unit fragment must find it armed and disarms it. -/
def okUnits : Bool → List Frag → Bool
  | _, [] => true
  | _, (Frag.entity _ _) :: t => okUnits true t
  | b, (Frag.unit _) :: t => b && okUnits false t
  | b, (Frag.resolution _) :: t => okUnits b t

/-- The arming state left by a fragment list, mirroring `okUnits`. -/
def unitEnd : Bool → List Frag → Bool
  | b, [] => b
  | _, (Frag.entity _ _) :: t => unitEnd true t
  | _, (Frag.unit _) :: t => unitEnd false t
  | b, (Frag.resolution _) :: t => unitEnd b t

/-- Split a character list at the first occurrence of the substring
`sep`. -/
def splitOnSepOnce (sep : List Char) : List Char → Option (List Char × List Char)
  | [] => none
  | c :: t =>
    if sep.isPrefixOf (c :: t) then some ([], (c :: t).drop sep.length)
    else (splitOnSepOnce sep t).map (fun p => (c :: p.1, p.2))

/-- Value of one hexadecimal digit character (0 for non-digits). -/
def hexDigitVal (c : Char) : Nat :=
  let n := c.toNat
  if 48 ≤ n ∧ n ≤ 57 then n - 48
  else if 97 ≤ n ∧ n ≤ 102 then n - 87
  else if 65 ≤ n ∧ n ≤ 70 then n - 55
  else 0

/-- Value of a hexadecimal digit string. -/
def hexVal (l : List Char) : Nat :=
  l.foldl (fun acc c => 16 * acc + hexDigitVal c) 0

/-- Modelled from the spec: the display-range bound normalization of the
Entry Parser, whose code is not in `src/` (only the spec's §4.2 describes
it): trailing newline stripped, commas converted to points,
hexadecimal-prefixed values converted to decimal integers, empty values
defaulted to `"0.0"`, and a decimal point appended to values lacking
one. -/
def normalizeBound (s : String) : String :=
  let l0 := (s.data.reverse.dropWhile (fun c => c = '\n')).reverse
  let l1 := l0.map (fun c => if c = ',' then '.' else c)
  let l2 := if ['0', 'x'].isPrefixOf l1 then (toString (hexVal (l1.drop 2))).data else l1
  let l3 := if l2.isEmpty then ['0', '.', '0'] else l2
  let l4 := if l3.contains '.' then l3 else l3 ++ ['.', '0']
  String.mk l4

/-- Modelled from the spec: the display-range branch of the Entry Parser,
absent from `src/`: a line containing the display-range marker supplies
two bounds separated by `" - "`, each normalized by `normalizeBound`. -/
def displayRangeLine (line : String) : Option (String × String) :=
  match splitOnSepOnce "Display Range: ".data line.data with
  | none => none
  | some (_, rest) =>
    match splitOnSepOnce " - ".data rest with
    | none => none
    | some (a, b) => some (normalizeBound (String.mk a), normalizeBound (String.mk b))

end DDI

namespace Arduino

/-- `filePruneList` of `generateArduinoLibrary.py` (lines 87-128) exactly
as Python evaluates it: the string literals on lines 122-128 carry no
separating commas, so adjacent-literal concatenation fuses those seven
filenames into one 34th+1 element. -/
def filePruneList : List String :=
  ["iop_file_interface.cpp",
   "iop_file_interface.hpp",
   "available_can_drivers.hpp",
   "canal.h",
   "canal_a.h",
   "innomaker_usb2can_windows_plugin.hpp",
   "InnoMakerUsb2CanLib.h",
   "libusb.h",
   "mac_can_pcan_plugin.hpp",
   "mcp2515_can_interface.hpp",
   "pcan_basic_windows_plugin.hpp",
   "PCANBasic.h",
   "PCBUSB.h",
   "socket_can_interface.hpp",
   "spi_hardware_plugin.hpp",
   "spi_interface_esp.hpp",
   "spi_transaction_frame.hpp",
   "toucan_vscp_canal.hpp",
   "twai_plugin.hpp",
   "virtual_can_plugin.hpp",
   "innomaker_usb2can_windows_plugin.cpp",
   "mac_can_pcan_plugin.cpp",
   "mcp2515_can_interface.cpp",
   "pcan_basic_windows_plugin.cpp",
   "socket_can_interface.cpp",
   "spi_interface_esp.cpp",
   "spi_transaction_frame.cpp",
   "toucan_vscp_canal.cpp",
   "twai_plugin.cpp",
   "virtual_can_plugin.cpp",
   "can_hardware_interface.hpp",
   "can_hardware_interface.cpp",
   "socketcand_windows_network_client.hpp",
   "socketcand_windows_network_client.cpp",
   "isobus_virtual_terminal_objects.cppisobus_virtual_terminal_objects.hppisobus_virtual_terminal_server_managed_working_set.hppisobus_virtual_terminal_server_managed_working_set.cppisobus_virtual_terminal_server.cppisobus_virtual_terminal_server.hppCMakeCXXCompilerId.cpp"]

/-- The denylist as written in the source, one filename per source line
(lines 88-128 read as the list its layout intends, one entry per
literal). -/
def intendedPruneNames : List String :=
  ["iop_file_interface.cpp",
   "iop_file_interface.hpp",
   "available_can_drivers.hpp",
   "canal.h",
   "canal_a.h",
   "innomaker_usb2can_windows_plugin.hpp",
   "InnoMakerUsb2CanLib.h",
   "libusb.h",
   "mac_can_pcan_plugin.hpp",
   "mcp2515_can_interface.hpp",
   "pcan_basic_windows_plugin.hpp",
   "PCANBasic.h",
   "PCBUSB.h",
   "socket_can_interface.hpp",
   "spi_hardware_plugin.hpp",
   "spi_interface_esp.hpp",
   "spi_transaction_frame.hpp",
   "toucan_vscp_canal.hpp",
   "twai_plugin.hpp",
   "virtual_can_plugin.hpp",
   "innomaker_usb2can_windows_plugin.cpp",
   "mac_can_pcan_plugin.cpp",
   "mcp2515_can_interface.cpp",
   "pcan_basic_windows_plugin.cpp",
   "socket_can_interface.cpp",
   "spi_interface_esp.cpp",
   "spi_transaction_frame.cpp",
   "toucan_vscp_canal.cpp",
   "twai_plugin.cpp",
   "virtual_can_plugin.cpp",
   "can_hardware_interface.hpp",
   "can_hardware_interface.cpp",
   "socketcand_windows_network_client.hpp",
   "socketcand_windows_network_client.cpp",
   "isobus_virtual_terminal_objects.cpp",
   "isobus_virtual_terminal_objects.hpp",
   "isobus_virtual_terminal_server_managed_working_set.hpp",
   "isobus_virtual_terminal_server_managed_working_set.cpp",
   "isobus_virtual_terminal_server.cpp",
   "isobus_virtual_terminal_server.hpp",
   "CMakeCXXCompilerId.cpp"]

/-- The prune loop (lines 130-133): each filename of `filePruneList` that
exists in the flattened output directory is deleted.  The directory is
modelled as the list of filenames it holds. -/
def pruneRun (files : List String) : List String :=
  files.filter (fun f => ! filePruneList.contains f)

end Arduino

namespace DDI

/-- `containsSub` decides the contiguous-infix relation. -/
theorem containsSub_correct (n : List Char) : ∀ l, containsSub n l = true ↔ n <:+: l := by
  intro l
  induction l with
  | nil =>
    simp [containsSub, List.isEmpty_iff, List.infix_nil]
  | cons c t ih =>
    simp [containsSub, List.isPrefixOf_iff_prefix, List.infix_cons_iff, ih]

/-- `okUnits` distributes over append through the arming state. -/
theorem okUnits_append (a b : List Frag) :
    ∀ s, okUnits s (a ++ b) = (okUnits s a && okUnits (unitEnd s a) b) := by
  induction a with
  | nil => intro s; simp [okUnits, unitEnd]
  | cons f t ih =>
    intro s
    cases f <;> simp [okUnits, unitEnd, ih, Bool.and_assoc]

/-- `unitEnd` composes over append. -/
theorem unitEnd_append (a b : List Frag) :
    ∀ s, unitEnd s (a ++ b) = unitEnd (unitEnd s a) b := by
  induction a with
  | nil => intro s; simp [unitEnd]
  | cons f t ih =>
    intro s
    cases f <;> simp [unitEnd, ih]

/-- The record-start branch keeps the unit-fragment discipline and its
output state matches the arming state of its fragments. -/
theorem entStep_ok (st : Bool) (line : String) {fs : List Frag} {st1 : Bool}
    {err : Option Err} (h : entStep st line = (fs, st1, err)) :
    okUnits st fs = true ∧ unitEnd st fs = st1 := by
  unfold entStep at h
  split at h
  · split at h <;>
      (simp only [Prod.mk.injEq] at h
       obtain ⟨h1, h2, h3⟩ := h
       subst h1
       subst h2
       simp [okUnits, unitEnd])
  · simp only [Prod.mk.injEq] at h
    obtain ⟨h1, h2, h3⟩ := h
    subst h1
    subst h2
    simp [okUnits, unitEnd]

/-- The unit branch keeps the unit-fragment discipline: it emits only
while armed, and disarms. -/
theorem uniStep_ok (st1 : Bool) (line : String) {fs2 : List Frag} {st2 : Bool}
    {err : Option Err} (h : uniStep st1 line = (fs2, st2, err)) :
    okUnits st1 fs2 = true ∧ unitEnd st1 fs2 = st2 := by
  unfold uniStep at h
  split at h
  next hc =>
    have hst : st1 = true := by
      cases st1
      · simp at hc
      · rfl
    subst hst
    split at h <;>
      (simp only [Prod.mk.injEq] at h
       obtain ⟨h1, h2, h3⟩ := h
       subst h1
       subst h2
       simp [okUnits, unitEnd])
  next hc =>
    simp only [Prod.mk.injEq] at h
    obtain ⟨h1, h2, h3⟩ := h
    subst h1
    subst h2
    simp [okUnits, unitEnd]

/-- The resolution branch emits no unit fragment and keeps the state. -/
theorem resStep_ok (line : String) (b : Bool) {fs3 : List Frag}
    {err : Option Err} (h : resStep line = (fs3, err)) :
    okUnits b fs3 = true ∧ unitEnd b fs3 = b := by
  unfold resStep at h
  split at h
  · split at h <;>
      (simp only [Prod.mk.injEq] at h
       obtain ⟨h1, h2⟩ := h
       subst h1
       simp [okUnits, unitEnd])
  · simp only [Prod.mk.injEq] at h
    obtain ⟨h1, h2⟩ := h
    subst h1
    simp [okUnits, unitEnd]

/-- One loop iteration keeps the unit-fragment discipline, and the
`processUnit` flag it returns is exactly the arming state left by the
fragments it wrote. -/
theorem stepLine_ok (st : Bool) (line : String) {fs : List Frag} {st' : Bool}
    {err : Option Err} (h : stepLine st line = (fs, st', err)) :
    okUnits st fs = true ∧ unitEnd st fs = st' := by
  unfold stepLine at h
  rcases he : entStep st line with ⟨fsE, st1, errE⟩
  rw [he] at h
  have hE := entStep_ok st line he
  cases errE with
  | some e =>
    dsimp only at h
    simp only [Prod.mk.injEq] at h
    obtain ⟨h1, h2, h3⟩ := h
    subst h1
    subst h2
    exact hE
  | none =>
    dsimp only at h
    rcases hu : uniStep st1 line with ⟨fsU, st2, errU⟩
    rw [hu] at h
    have hU := uniStep_ok st1 line hu
    cases errU with
    | some e =>
      dsimp only at h
      simp only [Prod.mk.injEq] at h
      obtain ⟨h1, h2, h3⟩ := h
      subst h1
      subst h2
      constructor
      · rw [okUnits_append, hE.1, hE.2, hU.1]
        rfl
      · rw [unitEnd_append, hE.2, hU.2]
    | none =>
      rcases hr : resStep line with ⟨fsR, errR⟩
      rw [hr] at h
      have hR := resStep_ok line st2 hr
      dsimp only at h
      simp only [Prod.mk.injEq] at h
      obtain ⟨h1, h2, h3⟩ := h
      subst h1
      subst h2
      constructor
      · rw [okUnits_append, okUnits_append, hE.1, hE.2, hU.1, unitEnd_append, hE.2, hU.2, hR.1]
        rfl
      · rw [unitEnd_append, unitEnd_append, hE.2, hU.2, hR.2]

end DDI

namespace DDI

/-- Claim C8 — For every record, at most one unit fragment is emitted: after
a unit line is consumed for the record in progress, subsequent unit lines
are ignored until the next record-start line opens a new record.  Stated
as: from any initial `processUnit` flag, the fragment stream written by
the second pass passes the `okUnits` scanner (each record-start re-arms
the flag, each unit fragment must find it armed and disarms it). -/
theorem at_most_one_unit_per_record :
    ∀ (st : Bool) (lines : List String), okUnits st (runGen st lines).1 = true := by
  intro st lines
  induction lines generalizing st with
  | nil => simp [runGen, okUnits]
  | cons l ls ih =>
    rcases hs : stepLine st l with ⟨fs, st', err⟩
    have h := stepLine_ok st l hs
    cases err with
    | some e =>
      simp only [runGen, hs]
      exact h.1
    | none =>
      simp only [runGen, hs]
      rw [okUnits_append, h.1, h.2]
      simpa using ih st'

/-- `countEntityFrags` is additive. -/
theorem countEntityFrags_append (a b : List Frag) :
    countEntityFrags (a ++ b) = countEntityFrags a + countEntityFrags b := by
  simp [countEntityFrags]

/-- A successful record-start branch writes one element opener on a
record-start line and none otherwise. -/
theorem entStep_count (st : Bool) (line : String) {fs : List Frag}
    {st1 : Bool} (h : entStep st line = (fs, st1, none)) :
    countEntityFrags fs = (if isEntityLine line then 1 else 0) := by
  unfold entStep at h
  split at h
  next hc =>
    split at h
    · simp only [Prod.mk.injEq] at h
      obtain ⟨h1, h2, h3⟩ := h
      subst h1
      simp [countEntityFrags, List.countP_cons, isEntityFrag, hc]
    · simp only [Prod.mk.injEq] at h
      exact absurd h.2.2 (by simp)
  next hc =>
    simp only [Prod.mk.injEq] at h
    obtain ⟨h1, h2, h3⟩ := h
    subst h1
    simp [countEntityFrags, hc]

/-- The unit branch never writes an element opener. -/
theorem uniStep_count (st1 : Bool) (line : String) {fs2 : List Frag}
    {st2 : Bool} {err : Option Err} (h : uniStep st1 line = (fs2, st2, err)) :
    countEntityFrags fs2 = 0 := by
  unfold uniStep at h
  split at h
  · split at h <;>
      (simp only [Prod.mk.injEq] at h
       obtain ⟨h1, h2, h3⟩ := h
       subst h1
       simp [countEntityFrags, List.countP_cons, isEntityFrag])
  · simp only [Prod.mk.injEq] at h
    obtain ⟨h1, h2, h3⟩ := h
    subst h1
    simp [countEntityFrags]

/-- The resolution branch never writes an element opener. -/
theorem resStep_count (line : String) {fs3 : List Frag} {err : Option Err}
    (h : resStep line = (fs3, err)) : countEntityFrags fs3 = 0 := by
  unfold resStep at h
  split at h
  · split at h <;>
      (simp only [Prod.mk.injEq] at h
       obtain ⟨h1, h2⟩ := h
       subst h1
       simp [countEntityFrags, List.countP_cons, isEntityFrag])
  · simp only [Prod.mk.injEq] at h
    obtain ⟨h1, h2⟩ := h
    subst h1
    simp [countEntityFrags]

/-- A non-aborting loop iteration writes exactly one element opener on a
record-start line and none otherwise. -/
theorem stepLine_count (st : Bool) (line : String) {fs : List Frag}
    {st' : Bool} (h : stepLine st line = (fs, st', none)) :
    countEntityFrags fs = (if isEntityLine line then 1 else 0) := by
  unfold stepLine at h
  rcases he : entStep st line with ⟨fsE, st1, errE⟩
  rw [he] at h
  cases errE with
  | some e =>
    dsimp only at h
    simp only [Prod.mk.injEq] at h
    exact absurd h.2.2 (by simp)
  | none =>
    dsimp only at h
    have hE := entStep_count st line he
    rcases hu : uniStep st1 line with ⟨fsU, st2, errU⟩
    rw [hu] at h
    have hU := uniStep_count st1 line hu
    cases errU with
    | some e =>
      dsimp only at h
      simp only [Prod.mk.injEq] at h
      exact absurd h.2.2 (by simp)
    | none =>
      rcases hr : resStep line with ⟨fsR, errR⟩
      rw [hr] at h
      have hR := resStep_count line hr
      dsimp only at h
      simp only [Prod.mk.injEq] at h
      obtain ⟨h1, h2, h3⟩ := h
      subst h1
      rw [countEntityFrags_append, countEntityFrags_append, hE, hU, hR]
      omega

/-- On a run that completes without an uncaught error, the second pass
writes exactly one element opener per record-start line. -/
theorem runGen_count :
    ∀ (lines : List String) (st : Bool), (runGen st lines).2 = none →
      countEntityFrags (runGen st lines).1 = lines.countP isEntityLine := by
  intro lines
  induction lines with
  | nil => intro st _; simp [runGen, countEntityFrags]
  | cons l ls ih =>
    intro st hok
    rcases hs : stepLine st l with ⟨fs, st', err⟩
    cases err with
    | some e =>
      rw [runGen, hs] at hok
      exact absurd hok (by simp)
    | none =>
      have hc := stepLine_count st l hs
      rw [runGen, hs] at hok ⊢
      dsimp only at hok ⊢
      rw [countEntityFrags_append, hc, List.countP_cons, ih st' hok]
      omega

end DDI

namespace DDI

/-- Unfolding `String.mk`. -/
theorem data_mk (l : List Char) : (String.mk l).data = l := rfl

/-- A character of a stripped list was in the original list. -/
theorem mem_stripChars {c : Char} {l : List Char} (h : c ∈ stripChars l) : c ∈ l := by
  unfold stripChars at h
  rw [List.mem_reverse] at h
  have h1 : c ∈ (l.dropWhile Char.isWhitespace).reverse :=
    (List.dropWhile_sublist _).subset h
  rw [List.mem_reverse] at h1
  exact (List.dropWhile_sublist _).subset h1

/-- The comma-to-point replacement leaves no comma behind. -/
theorem mem_commaToPoint {c : Char} {s : String} (h : c ∈ (commaToPoint s).data) :
    c ≠ ',' := by
  unfold commaToPoint at h
  rw [data_mk] at h
  rcases List.mem_map.mp h with ⟨a, _, ha⟩
  subst ha
  by_cases hc : a = ','
  · simp [hc]
  · simp [hc]

/-- The rendered resolution never contains a comma. -/
theorem resolutionValue_comma_free (r0 : String) :
    ((resolutionValue r0).data.all (fun c => c ≠ ',')) = true := by
  rw [List.all_eq_true]
  intro c hc
  simp only [resolutionValue] at hc
  simp only [decide_eq_true_eq]
  by_cases h1 : pyStrip (commaToPoint r0) = "1"
  · rw [if_pos h1] at hc
    rw [if_neg (by decide : ¬ pyStrip ("1.0" : String) = "0")] at hc
    have he : pyStrip ("1.0" : String) = "1.0" := by decide
    rw [he] at hc
    have hm : c ∈ ['1', '.', '0'] := hc
    simp only [List.mem_cons, List.not_mem_nil, or_false] at hm
    rcases hm with rfl | rfl | rfl <;> decide
  · rw [if_neg h1] at hc
    by_cases h0 : pyStrip (commaToPoint r0) = "0"
    · rw [if_pos h0] at hc
      have he : pyStrip ("0.0" : String) = "0.0" := by decide
      rw [he] at hc
      have hm : c ∈ ['0', '.', '0'] := hc
      simp only [List.mem_cons, List.not_mem_nil, or_false] at hm
      rcases hm with rfl | rfl | rfl <;> decide
    · rw [if_neg h0] at hc
      have hmem : c ∈ (commaToPoint r0).data := mem_stripChars hc
      exact mem_commaToPoint hmem

end DDI

namespace DDI

/-- A small concrete export used to witness the hypothesis-bearing
theorems. -/
def demoExport : List String :=
  ["DD Entity: 1 Actual Mass Per Area Yield",
   "Unit: mg/m² - Mass per area unit",
   "Resolution: 0,01"]

/-- A concrete generation date. -/
def demoDate : GenDate :=
  { full := "May 01, 2025", year := "2025" }

/-- A small concrete generated table used to witness the lookup
theorems. -/
def demoEntries : List Entry :=
  [{ ddi := 1, name := "Actual Mass Per Area Yield",
     units := "mg/m² - Mass per area unit", resolution := 1 },
   { ddi := 2, name := "Actual Width", units := "mm - Length", resolution := 0 }]

/-- A record-start branch abort means the line was a record-start line
with fewer than four space-separated parts. -/
theorem entStep_err_entity (st : Bool) (line : String) {fs : List Frag}
    {st1 : Bool} (h : entStep st line = (fs, st1, some Err.entityIndex)) :
    isEntityLine line = true ∧ (entityParts line).length < 4 := by
  unfold entStep at h
  split at h
  next hc =>
    rcases h2 : (entityParts line).get? 2 with _ | i
    · refine ⟨hc, ?_⟩
      have := List.get?_eq_none.mp h2
      omega
    · rcases h3 : (entityParts line).get? 3 with _ | n
      · refine ⟨hc, ?_⟩
        have := List.get?_eq_none.mp h3
        omega
      · rw [h2, h3] at h
        dsimp only at h
        simp only [Prod.mk.injEq] at h
        exact absurd h.2.2 (by simp)
  next hc =>
    simp only [Prod.mk.injEq] at h
    exact absurd h.2.2 (by simp)

/-- The unit branch can only abort with the unit-index error. -/
theorem uniStep_err_ne (st1 : Bool) (line : String) {fs2 : List Frag}
    {st2 : Bool} {e : Err} (h : uniStep st1 line = (fs2, st2, some e)) :
    e = Err.unitIndex := by
  unfold uniStep at h
  split at h
  · split at h
    · simp only [Prod.mk.injEq] at h
      exact absurd h.2.2 (by simp)
    · simp only [Prod.mk.injEq] at h
      exact (Option.some.inj h.2.2).symm
  · simp only [Prod.mk.injEq] at h
    exact absurd h.2.2 (by simp)

/-- The resolution branch can only abort with the resolution-index
error. -/
theorem resStep_err_ne (line : String) {fs3 : List Frag} {e : Err}
    (h : resStep line = (fs3, some e)) : e = Err.resolutionIndex := by
  unfold resStep at h
  split at h
  · split at h
    · simp only [Prod.mk.injEq] at h
      exact absurd h.2 (by simp)
    · simp only [Prod.mk.injEq] at h
      exact (Option.some.inj h.2).symm
  · simp only [Prod.mk.injEq] at h
    exact absurd h.2 (by simp)

/-- A loop iteration aborts with the record-start indexing error only on
a record-start line with fewer than four parts. -/
theorem stepLine_err_entity (st : Bool) (line : String) {fs : List Frag}
    {st' : Bool} (h : stepLine st line = (fs, st', some Err.entityIndex)) :
    isEntityLine line = true ∧ (entityParts line).length < 4 := by
  unfold stepLine at h
  rcases he : entStep st line with ⟨fsE, st1, errE⟩
  rw [he] at h
  cases errE with
  | some e =>
    dsimp only at h
    simp only [Prod.mk.injEq] at h
    obtain ⟨h1, h2, h3⟩ := h
    cases Option.some.inj h3
    exact entStep_err_entity st line he
  | none =>
    dsimp only at h
    rcases hu : uniStep st1 line with ⟨fsU, st2, errU⟩
    rw [hu] at h
    cases errU with
    | some e =>
      dsimp only at h
      simp only [Prod.mk.injEq] at h
      have hne := uniStep_err_ne st1 line hu
      have hEq := Option.some.inj h.2.2
      rw [hne] at hEq
      exact absurd hEq (by decide)
    | none =>
      rcases hr : resStep line with ⟨fsR, errR⟩
      rw [hr] at h
      dsimp only at h
      simp only [Prod.mk.injEq] at h
      obtain ⟨h1, h2, h3⟩ := h
      rw [h3] at hr
      have hne := resStep_err_ne line hr
      exact absurd hne (by decide)

/-- Claim C1 — For every well-formed export (one the second pass
completes without an uncaught error), the number of array elements
emitted equals the number of record-start lines (lines containing
`"DD Entity"` and not `"Comment:"`), and the generated header's array
declaration carries exactly that count literal. -/
theorem ddi_count_consistent (lines : List String) (d : GenDate)
    (h : (runGen false lines).2 = none) :
    countEntityFrags (runGen false lines).1 = numberOfDDIs lines ∧
      pyIn ("DDI_ENTRIES[" ++ toString (numberOfDDIs lines) ++ "]")
        (genHeader lines d) = true := by
  constructor
  · exact runGen_count lines false h
  · unfold pyIn genHeader
    apply (containsSub_correct _ _).mpr
    refine ⟨(hppPartA ++ d.full ++ hppPartB ++ d.year ++ hppPartC).data,
      hppPartD.data, ?_⟩
    simp [List.append_assoc]

/-- Witness for `ddi_count_consistent` at a concrete export. -/
theorem ddi_count_consistent_witness :
    (runGen false demoExport).2 = none ∧
      (countEntityFrags (runGen false demoExport).1 = numberOfDDIs demoExport ∧
        pyIn ("DDI_ENTRIES[" ++ toString (numberOfDDIs demoExport) ++ "]")
          (genHeader demoExport demoDate) = true) :=
  ⟨by decide, ddi_count_consistent demoExport demoDate (by decide)⟩

/-- Claim C2 (amended) — Lookup of an identifier present in the table
returns an entry of the table carrying that identifier (the first match);
lookup of an absent identifier returns `DEFAULT_ENTRY`, whose fields are
identifier 65535, name `"Unknown"`, units string `"Unknown"`, and
resolution 0.0.  The lookup is total by construction and never fails. -/
theorem get_entry_spec (entries : List Entry) (ident : Nat) :
    (ident ∈ entries.map Entry.ddi →
        (get_entry entries ident).ddi = ident ∧ get_entry entries ident ∈ entries) ∧
      ((∀ e ∈ entries, e.ddi ≠ ident) → get_entry entries ident = DEFAULT_ENTRY) ∧
      DEFAULT_ENTRY.ddi = 65535 ∧ DEFAULT_ENTRY.name = "Unknown" ∧
      DEFAULT_ENTRY.units = "Unknown" ∧ DEFAULT_ENTRY.resolution = 0 := by
  refine ⟨?_, ?_, rfl, rfl, rfl, rfl⟩
  · induction entries with
    | nil => intro h; simp at h
    | cons e t ih =>
      intro h
      by_cases hd : e.ddi = ident
      · simp only [get_entry, if_pos hd]
        exact ⟨hd, List.mem_cons_self e t⟩
      · simp only [get_entry, if_neg hd]
        have h' : ident ∈ t.map Entry.ddi := by
          rcases List.mem_map.mp h with ⟨a, ha, hda⟩
          rcases List.mem_cons.mp ha with h1 | h1
          · subst h1; exact absurd hda hd
          · exact List.mem_map.mpr ⟨a, h1, hda⟩
        rcases ih h' with ⟨hh1, hh2⟩
        exact ⟨hh1, List.mem_cons_of_mem e hh2⟩
  · induction entries with
    | nil => intro _; rfl
    | cons e t ih =>
      intro h
      have hd : e.ddi ≠ ident := h e (List.mem_cons_self e t)
      simp only [get_entry, if_neg hd]
      exact ih (fun x hx => h x (List.mem_cons_of_mem e hx))

/-- Witness for `get_entry_spec` at a concrete table: identifier 2 is
found, identifier 9 falls through to the default entry. -/
theorem get_entry_spec_witness :
    ((get_entry demoEntries 2).ddi = 2 ∧ get_entry demoEntries 2 ∈ demoEntries) ∧
      get_entry demoEntries 9 = DEFAULT_ENTRY :=
  ⟨(get_entry_spec demoEntries 2).1 (by decide),
    (get_entry_spec demoEntries 9).2.1 (by decide)⟩

/-- Counterexample to claim C2 as stated: the synthetic default entry's
units field is the string `"Unknown"`, not empty. -/
theorem get_entry_default_units_cx :
    get_entry [] 0 = DEFAULT_ENTRY ∧ DEFAULT_ENTRY.units = "Unknown" ∧
      DEFAULT_ENTRY.units ≠ "" :=
  ⟨rfl, rfl, by decide⟩

end DDI

namespace DDI

/-- Counterexample to claim C3 as stated: for a unit line containing
`"n.a. -"`, the parser does not emit an empty symbol and the sentinel
name `"n.a."`; it emits the single units string `"None"`.  The remainder
is never split around `" - "` into two fields — one unit fragment with
one string is written. -/
theorem unit_not_split_cx :
    runGen false ["DD Entity 1 Test", "Unit: n.a. - n.a."]
      = ([Frag.entity "1" "Test", Frag.unit "None"], none) ∧
      ("None" : String) ≠ "n.a." ∧ ("None" : String) ≠ "" := by
  refine ⟨by decide, by decide, by decide⟩

/-- Claim C3 (amended) — For a unit line within an open record, the
parser emits the whole remainder after the first space as one units
string (symbol and name are not separated); a unit line containing
`"n.a. -"` or `"not defined - not defined"` emits the single string
`"None"`.  Unit lines outside an open record are ignored. -/
theorem unit_single_field :
    stepLine true "Unit: mm³/m² - Capacity per area unit"
      = ([Frag.unit "mm³/m² - Capacity per area unit"], false, none) ∧
      stepLine true "Unit: n.a. - n.a." = ([Frag.unit "None"], false, none) ∧
      stepLine true "Unit: not defined - not defined"
        = ([Frag.unit "None"], false, none) ∧
      stepLine false "Unit: mm³/m² - Capacity per area unit" = ([], false, none) := by
  refine ⟨by decide, by decide, by decide, by decide⟩

/-- Claim C4 — Display-range bounds split around `" - "` are rendered
with hexadecimal-prefixed values converted to decimal, empty values
defaulted to `"0.0"`, commas converted to points, and a decimal point
appended to values lacking one; in particular
`"Display Range: 0x0 - 0x7FFFFFFF"` renders bounds `0.0` and
`2147483647.0`.  (The display-range branch is modelled from the spec;
its code is not in `src/`.) -/
theorem display_range_normalization :
    displayRangeLine "Display Range: 0x0 - 0x7FFFFFFF"
        = some ("0.0", "2147483647.0") ∧
      normalizeBound "" = "0.0" ∧
      normalizeBound "1,5" = "1.5" ∧
      normalizeBound "3" = "3.0" ∧
      normalizeBound "0x7FFFFFFF" = "2147483647.0" := by
  refine ⟨by decide, by decide, by decide, by decide, by decide⟩

/-- Counterexample to claim C5 as stated: a resolution line carrying the
bare integer `2` is rendered as `"2"` — no decimal point — because only
the literals `"0"` and `"1"` are normalized. -/
theorem resolution_bare_integer_cx :
    runGen false ["DD Entity 7 Foo", "Unit: kg - mass", "Resolution: 2"]
      = ([Frag.entity "7" "Foo", Frag.unit "kg - mass", Frag.resolution "2"], none) ∧
      ("2".data.contains '.') = false ∧
      renderFrag (Frag.resolution "2") = "2f \x7d, \n" := by
  refine ⟨by decide, by decide, by decide⟩

/-- Claim C5 (amended) — Rendered resolutions never contain a decimal
comma, and the bare literals `"0"` and `"1"` are normalized to `"0.0"` /
`"1.0"`; any other value is emitted as-is after comma-to-point
replacement and stripping, so a bare integer other than 0 or 1 is
emitted without a decimal point. -/
theorem resolution_normalization (r0 : String) :
    ((resolutionValue r0).data.all (fun c => c ≠ ',')) = true ∧
      resolutionValue "0" = "0.0" ∧ resolutionValue "1" = "1.0" ∧
      resolutionValue "0,01" = "0.01" ∧ resolutionValue "2" = "2" :=
  ⟨resolutionValue_comma_free r0, by decide, by decide, by decide, by decide⟩

/-- Counterexample to claim C6 as stated: the renderer does not patch
existing content in place or leave it unchanged when no anchor is found.
Pre-existing artifact contents (here `"X"`/`"Y"`, which contain no
anchor) are discarded and replaced wholesale. -/
theorem renderer_overwrites_cx :
    (runGenerator { hpp := some "X", cpp := some "Y" } [] demoDate).hpp
        ≠ some "X" ∧
      (runGenerator { hpp := some "X", cpp := some "Y" } [] demoDate).cpp
        ≠ some "Y" := by
  refine ⟨by decide, by decide⟩

/-- Claim C6 (amended) — The generator deletes any pre-existing output
artifacts and regenerates both files wholly from the export and the
date: the output never depends on the prior file contents, and no
anchor search is performed. -/
theorem renderer_full_rewrite (fs1 fs2 : Fs) (lines : List String) (d : GenDate) :
    (runGenerator fs1 lines d).hpp = some (genHeader lines d) ∧
      (runGenerator fs1 lines d).cpp = some (genSource lines d) ∧
      runGenerator fs1 lines d = runGenerator fs2 lines d :=
  ⟨rfl, rfl, rfl⟩

/-- Claim C7 — Running the generator twice on an unchanged export yields
the same artifacts as one run at the later date; with the same date
string both runs produce identical output files. -/
theorem generator_idempotent_mod_date (fs : Fs) (lines : List String)
    (d1 d2 : GenDate) :
    runGenerator (runGenerator fs lines d1) lines d2 = runGenerator fs lines d2 ∧
      (d1 = d2 →
        runGenerator (runGenerator fs lines d1) lines d2 = runGenerator fs lines d1) :=
  ⟨rfl, fun h => by subst h; rfl⟩

/-- Witness for `generator_idempotent_mod_date` at a concrete state,
export and date. -/
theorem generator_idempotent_mod_date_witness :
    runGenerator (runGenerator { hpp := none, cpp := none } demoExport demoDate)
        demoExport demoDate
      = runGenerator { hpp := none, cpp := none } demoExport demoDate :=
  (generator_idempotent_mod_date { hpp := none, cpp := none }
    demoExport demoDate demoDate).2 rfl

/-- Claim C10 — The parser's record-start indexing is safe exactly under
the precondition that every record-start line splits into at least four
space-separated parts: under that precondition the run never aborts with
the record-start `IndexError`, while the shorter record-start line
`"DD Entity"` aborts the run with it. -/
theorem entity_indexing_safety :
    (∀ lines : List String,
        (∀ l ∈ lines, isEntityLine l = true → 4 ≤ (entityParts l).length) →
        ∀ st : Bool, (runGen st lines).2 ≠ some Err.entityIndex) ∧
      runGen false ["DD Entity"] = ([], some Err.entityIndex) := by
  constructor
  · intro lines
    induction lines with
    | nil => intro _ st; simp [runGen]
    | cons l ls ih =>
      intro hpre st
      rcases hs : stepLine st l with ⟨fs, st', err⟩
      cases err with
      | some e =>
        rw [runGen, hs]
        dsimp only
        intro hcontra
        cases Option.some.inj hcontra
        have hbad := stepLine_err_entity st l hs
        have h4 := hpre l (List.mem_cons_self l ls) hbad.1
        omega
      | none =>
        rw [runGen, hs]
        dsimp only
        exact ih (fun x hx => hpre x (List.mem_cons_of_mem l hx)) st'
  · decide

/-- Witness for `entity_indexing_safety` at a concrete well-formed
export. -/
theorem entity_indexing_safety_witness :
    (runGen false ["DD Entity: 1 X"]).2 ≠ some Err.entityIndex :=
  entity_indexing_safety.1 ["DD Entity: 1 X"] (by decide) false

end DDI

namespace Arduino

/-- Claim C9 — The prune loop deletes every filename of the evaluated
`filePruneList` from the flattened directory, but the list the source
writes (one filename per line) is not the list Python evaluates: the
missing commas on the last seven literals fuse them into one element, so
`"isobus_virtual_terminal_objects.cpp"` (and five siblings) survive the
prune although the source's denylist names them. -/
theorem prune_denylist_gap :
    pruneRun ["isobus_virtual_terminal_objects.cpp", "twai_plugin.cpp"]
      = ["isobus_virtual_terminal_objects.cpp"] ∧
      filePruneList.contains "isobus_virtual_terminal_objects.cpp" = false ∧
      "isobus_virtual_terminal_objects.cpp" ∈ intendedPruneNames ∧
      filePruneList.length = 35 ∧ intendedPruneNames.length = 41 := by
  refine ⟨by decide, by decide, by decide, by decide, by decide⟩

end Arduino
